import Mathlib

/-!
Shallow embedding of deck.gl's `ViewManager`
(`src/modules/core/src/views/view-manager.js`).

The manager reconciles a declarative list of view descriptors against
derived viewport instances and stateful interaction controllers.  JS
objects used as data (view state, controller configuration, query
arguments) are embedded as the inductive `JVal`; JS objects used as
string-keyed maps (`controllers`, `_viewportMap`) are embedded as
association lists with JS-object update semantics (overwrite in place,
append new keys).  The external collaborator classes `View`, `Viewport`
and `Controller` are not part of the source file; they are modelled from
the spec's interface description, with controller reference identity
represented by an allocation counter and `finalize` calls recorded in an
event log.
-/

namespace DeckGL

/-- JavaScript-like values. Used for `viewState`, controller configuration
and spatial-query arguments/options. `null` also stands for JS `undefined`. -/
inductive JVal where
  | null
  | bool (b : Bool)
  | num (n : Int)
  | str (s : String)
  | arr (xs : List JVal)
  | obj (fields : List (String × JVal))

/-- JS truthiness of a `JVal`. -/
def JVal.truthy : JVal → Bool
  | .null => false
  | .bool b => b
  | .num n => n != 0
  | .str s => s != ""
  | .arr _ => true
  | .obj _ => true

/-- JS property access `v[key]`: `none` models `undefined` (key absent or
receiver not an object). -/
def JVal.get (v : JVal) (key : String) : Option JVal :=
  match v with
  | .obj fields => fields.lookup key
  | _ => none

mutual
/-- Structural equality of JS values. -/
def JVal.deq : JVal → JVal → Bool
  | .null, .null => true
  | .bool a, .bool b => a == b
  | .num a, .num b => a == b
  | .str a, .str b => a == b
  | .arr a, .arr b => JVal.deqList a b
  | .obj a, .obj b => JVal.deqFields a b
  | _, _ => false

/-- Structural equality on lists of JS values. -/
def JVal.deqList : List JVal → List JVal → Bool
  | [], [] => true
  | x :: xs, y :: ys => JVal.deq x y && JVal.deqList xs ys
  | _, _ => false

/-- Structural equality on JS object field lists. -/
def JVal.deqFields : List (String × JVal) → List (String × JVal) → Bool
  | [], [] => true
  | (k, v) :: xs, (k', v') :: ys => k == k' && JVal.deq v v' && JVal.deqFields xs ys
  | _, _ => false
end

/-- Modelled from the spec: the `deepEqual` utility (`utils/deep-equal`, not in
`src/`). The spec calls it "structural (deep) equality against the previous
value"; it is embedded as structural equality of `JVal`. -/
def deepEqual (a b : JVal) : Bool := JVal.deq a b

/-- Value of a JS dirty flag: `false`, boolean `true` (the constructor's
initial `_needsUpdate`), or a reason string. -/
inductive Flag where
  | off
  | on
  | reason (s : String)
deriving DecidableEq

/-- JS truthiness of a flag value. -/
def Flag.isTruthy : Flag → Bool
  | .off => false
  | .on => true
  | .reason _ => true

/-- JS short-circuit `a || b` on flag values: keeps `a` when it is truthy. -/
def Flag.orJS (a b : Flag) : Flag :=
  if a.isTruthy then a else b

/-- Modelled from the spec: the `Viewport` collaborator class (not in `src/`).
Immutable projection object carrying geometry, an id (empty string models a
missing id), and the spatial predicates/projections the manager consumes:
`contains(xyz, opts)`, `containsPixel(rectOrPoint, opts)`, `project(xyz, opts)`
and `unproject(xyz)`. -/
structure Viewport where
  id : String
  x : Int
  y : Int
  width : Int
  height : Int
  containsFn : JVal → JVal → Bool
  containsPixelFn : JVal → JVal → Bool
  projectFn : JVal → JVal → JVal
  unprojectFn : JVal → JVal

/-- Modelled from the spec: the `View` descriptor collaborator class (not in
`src/`). Identity-bearing descriptor with an id, an optional controller
configuration (`JVal`, tested for truthiness), optional default interaction
state, and a factory `makeViewport(width, height, viewState)`. The
caller-supplied `equals` method is passed separately as a binary predicate. -/
structure View where
  id : String
  controller : JVal
  defaultState : JVal
  makeViewport : Int → Int → JVal → Viewport

/-- Merged controller properties, mirroring the `Object.assign` in
`_rebuildViewportsFromViews`: the controller config, the view's default
state and the resolved view state are kept whole (they are unexamined objects
merged at lower precedence), while `id, x, y, width, height` are the
explicitly assigned highest-precedence fields. -/
structure ControllerProps where
  config : JVal
  defaultState : JVal
  viewState : JVal
  id : String
  x : Int
  y : Int
  width : Int
  height : Int

/-- Modelled from the spec: the `Controller` collaborator class (not in
`src/`). Stateful handler; `cid` is its allocation identity (reference
identity of the JS instance), `props` the properties last passed to its
constructor or `setProps`. -/
structure Controller where
  cid : Nat
  props : ControllerProps

/-- Controller `setProps`: updates the stored properties, preserving the
instance identity (and hence any internal interaction state). -/
def Controller.setProps (c : Controller) (p : ControllerProps) : Controller :=
  { c with props := p }

/-- Input accepted by `setProps({views})`: a possibly nested sequence of
view descriptors, bare viewport instances, and falsy entries. -/
inductive ViewInput where
  | v (view : View)
  | vp (viewport : Viewport)
  | falsy
  | nested (xs : List ViewInput)

/-- The `ViewManager` state: the sealed own-property set of the JS object,
plus bookkeeping for the embedding (`nextCid` allocates controller
identities, `finalizedLog` records every `finalize` call by controller
identity, `warnings` counts `log.warn` calls). -/
structure VM where
  views : List View
  width : Int
  height : Int
  viewState : JVal
  controllers : List (String × Controller)
  viewports : List Viewport
  viewportMap : List (String × Viewport)
  needsRedrawFlag : Flag
  needsUpdateFlag : Flag
  nextCid : Nat
  finalizedLog : List Nat
  warnings : Nat

/-- JS object assignment `m[k] = v` on a string-keyed map: overwrite in
place when the key exists, append otherwise. -/
def assocSet {α : Type} : List (String × α) → String → α → List (String × α)
  | [], k, v => [(k, v)]
  | (k', v') :: rest, k, v =>
      if k' = k then (k', v) :: rest else (k', v') :: assocSet rest k v

mutual
/-- Modelled from the spec: one element of the `flatten` utility
(`utils/flatten`, not in `src/`): a nested array contributes its own
flattening, a falsy entry nothing, any other entry itself. -/
def flattenOne : ViewInput → List (View ⊕ Viewport)
  | .v view => [.inl view]
  | .vp viewport => [.inr viewport]
  | .falsy => []
  | .nested xs => flattenFilter xs

/-- Modelled from the spec: the `flatten` utility (`utils/flatten`, not in
`src/`), called as `flatten(views, {filter: Boolean})`: flattens nested
arrays and drops falsy entries, preserving order. -/
def flattenFilter : List ViewInput → List (View ⊕ Viewport)
  | [] => []
  | x :: rest => flattenOne x ++ flattenFilter rest
end

/-- Modelled from the spec: wrapping a bare `Viewport` instance in a minimal
`View` descriptor, `new View({viewportInstance: view})`: no controller, no
default state, and a factory that returns the wrapped viewport. -/
def View.ofViewport (vp : Viewport) : View :=
  { id := vp.id
    controller := JVal.null
    defaultState := JVal.null
    makeViewport := fun _ _ _ => vp }

/-- The normalized view list produced at the top of `_setViews`: flatten,
drop falsy entries, wrap bare viewports. -/
def normalizeViews (input : List ViewInput) : List View :=
  (flattenFilter input).map fun e =>
    match e with
    | .inl view => view
    | .inr viewport => View.ofViewport viewport

/-- `getViewState` logic over a view-state value: `viewState[viewId] ||
viewState` (falls back to the whole object when the entry is absent or
falsy). -/
def getViewStateFrom (viewState : JVal) (viewId : String) : JVal :=
  match viewState.get viewId with
  | some v => if v.truthy then v else viewState
  | none => viewState

/-- `getViewState(viewId)`: backward compatibility for single view state. -/
def VM.getViewState (vm : VM) (viewId : String) : JVal :=
  getViewStateFrom vm.viewState viewId

/-- `getViewport(viewId)`: direct lookup in the id-to-viewport map. -/
def VM.getViewport (vm : VM) (viewId : String) : Option Viewport :=
  vm.viewportMap.lookup viewId

/-- `getViewports(rect)`: all viewports, or those containing the given
pixel/rect. The JS call passes `rect` alone, so `opts` is `undefined`. -/
def VM.getViewports (vm : VM) (rect : Option JVal) : List Viewport :=
  match rect with
  | some r => vm.viewports.filter fun viewport => viewport.containsPixelFn r JVal.null
  | none => vm.viewports

/-- `setNeedsRedraw(reason)`: `this._needsRedraw = this._needsRedraw || reason`. -/
def VM.setNeedsRedraw (vm : VM) (reason : String) : VM :=
  { vm with needsRedrawFlag := vm.needsRedrawFlag.orJS (.reason reason) }

/-- `setNeedsUpdate(reason)`: raises both dirty flags with `||`. -/
def VM.setNeedsUpdate (vm : VM) (reason : String) : VM :=
  { vm with
    needsUpdateFlag := vm.needsUpdateFlag.orJS (.reason reason)
    needsRedrawFlag := vm.needsRedrawFlag.orJS (.reason reason) }

/-- `needsRedraw({clearRedrawFlags})`: returns the current flag value and
the post-call state (flag reset to `false` when `clearRedrawFlags`). -/
def VM.needsRedraw (vm : VM) (clearRedrawFlags : Bool) : Flag × VM :=
  (vm.needsRedrawFlag,
    if clearRedrawFlags then { vm with needsRedrawFlag := .off } else vm)

/-- `project(xyz, opts)` scan body: first viewport in the given order that
contains the point in world space wins. -/
def firstProject (xyz opts : JVal) : List Viewport → Option JVal
  | [] => none
  | viewport :: rest =>
      if viewport.containsFn xyz opts then some (viewport.projectFn xyz opts)
      else firstProject xyz opts rest

/-- `unproject(xyz, opts)` scan body: first viewport in the given order that
contains the point in pixel space wins; `unproject` is called without opts. -/
def firstUnproject (xyz opts : JVal) : List Viewport → Option JVal
  | [] => none
  | viewport :: rest =>
      if viewport.containsPixelFn xyz opts then some (viewport.unprojectFn xyz)
      else firstUnproject xyz opts rest

/-- `project(xyz, opts)`: iterates `getViewports()` from the last index down
to 0 and returns the projection of the first containing viewport, else null. -/
def VM.project (vm : VM) (xyz opts : JVal) : Option JVal :=
  firstProject xyz opts (vm.getViewports none).reverse

/-- `unproject(xyz, opts)`: same reverse scan with pixel containment. -/
def VM.unproject (vm : VM) (xyz opts : JVal) : Option JVal :=
  firstUnproject xyz opts (vm.getViewports none).reverse

/-- `_diffViews(newViews, oldViews)`: length check plus pairwise `equals`
(the caller-supplied view equality `eqFn`); true means changed. -/
def diffViews (eqFn : View → View → Bool) (newViews oldViews : List View) : Bool :=
  if newViews.length != oldViews.length then true
  else (newViews.zip oldViews).any fun p => !(eqFn p.1 p.2)

/-- `_setViews(views)`: normalize the input, diff against the stored list,
raise update-needed when changed, and store the new list unconditionally. -/
def VM.setViews (eqFn : View → View → Bool) (vm : VM) (input : List ViewInput) : VM :=
  let views := normalizeViews input
  let viewsChanged := diffViews eqFn views vm.views
  let vm := if viewsChanged then vm.setNeedsUpdate "views changed" else vm
  { vm with views := views }

/-- `_setViewState(viewState)`: a falsy value only logs a warning; a truthy
value is stored, raising update-needed when it is not deep-equal to the
previous value. -/
def VM.setViewState (vm : VM) (viewState : JVal) : VM :=
  if viewState.truthy then
    let viewStateChanged := !(deepEqual viewState vm.viewState)
    let vm := if viewStateChanged then vm.setNeedsUpdate "viewState changed" else vm
    { vm with viewState := viewState }
  else
    { vm with warnings := vm.warnings + 1 }

/-- `_setSize(width, height)`: asserts both are finite numbers (`none`
models `undefined`, which fails `Number.isFinite`); on any change stores the
new size and raises update-needed. -/
def VM.setSize (vm : VM) (width height : Option Int) : Except Unit VM :=
  match width, height with
  | some w, some h =>
      .ok (if w != vm.width || h != vm.height then
        { (vm.setNeedsUpdate "Size changed") with width := w, height := h }
      else vm)
  | _, _ => .error ()

/-- The merged controller properties for one view during a rebuild:
`Object.assign({}, view.controller, view.defaultState, viewState,
{id, x, y, width, height})`. -/
def controllerPropsFor (view : View) (viewState : JVal) (viewport : Viewport) :
    ControllerProps :=
  { config := view.controller
    defaultState := view.defaultState
    viewState := viewState
    id := view.id
    x := viewport.x
    y := viewport.y
    width := viewport.width
    height := viewport.height }

/-- Accumulator of the `views.map` pass inside `_rebuildViewportsFromViews`:
the viewports produced so far, the new controllers map being filled, and the
controller-identity allocator. -/
structure RebuildAcc where
  viewports : List Viewport
  controllers : List (String × Controller)
  nextCid : Nat

/-- One iteration of the `views.map` callback in `_rebuildViewportsFromViews`:
resolve the view state, make the viewport, and when the view declares a
controller either update the old controller for this id in place or allocate
a new one, storing it in the new controllers map. -/
def processView (width height : Int) (vsAll : JVal)
    (oldControllers : List (String × Controller))
    (acc : RebuildAcc) (view : View) : RebuildAcc :=
  let viewState := getViewStateFrom vsAll view.id
  let viewport := view.makeViewport width height viewState
  let acc :=
    if view.controller.truthy then
      let controllerProps := controllerPropsFor view viewState viewport
      match oldControllers.lookup view.id with
      | some c =>
          { acc with
            controllers := assocSet acc.controllers view.id (c.setProps controllerProps) }
      | none =>
          { acc with
            controllers :=
              assocSet acc.controllers view.id ⟨acc.nextCid, controllerProps⟩
            nextCid := acc.nextCid + 1 }
    else acc
  { acc with viewports := acc.viewports ++ [viewport] }

/-- One step of `_buildViewportMap`: `map[id] = map[id] || viewport` for a
truthy id, which keeps an existing (always truthy) entry and inserts the
viewport only when the id is not yet bound. -/
def buildViewportMapStep (m : List (String × Viewport)) (viewport : Viewport) :
    List (String × Viewport) :=
  if viewport.id != "" then
    match m.lookup viewport.id with
    | some _ => m
    | none => assocSet m viewport.id viewport
  else m

/-- `_buildViewportMap()`: fold the viewports in order, first id wins. -/
def buildViewportMap (viewports : List Viewport) : List (String × Viewport) :=
  viewports.foldl buildViewportMapStep []

/-- The controller identities finalized by the remove-unused pass: every
entry of `oldControllers` whose id is absent from the new map. -/
def droppedCids (oldControllers newControllers : List (String × Controller)) :
    List Nat :=
  ((oldControllers.filter fun p => (newControllers.lookup p.1).isNone).map
    fun p => p.2.cid)

/-- `_rebuildViewportsFromViews()`: when update-needed is truthy, rebuild
viewports and controllers from the view descriptors, finalize controllers
whose id disappeared, rebuild the id-to-viewport map, and clear the update
flag; otherwise a no-op. -/
def VM.rebuildViewportsFromViews (vm : VM) : VM :=
  if vm.needsUpdateFlag.isTruthy then
    let oldControllers := vm.controllers
    let acc := vm.views.foldl
      (processView vm.width vm.height vm.viewState oldControllers)
      ⟨[], [], vm.nextCid⟩
    { vm with
      viewports := acc.viewports
      controllers := acc.controllers
      nextCid := acc.nextCid
      finalizedLog := vm.finalizedLog ++ droppedCids oldControllers acc.controllers
      viewportMap := buildViewportMap acc.viewports
      needsUpdateFlag := .off }
  else vm

/-- The property set accepted by `setProps`: `some` means the key is present
(`'key' in props`), `none` that it is absent. A present width/height is a
finite number; an absent one reaches `_setSize` as `undefined`. -/
structure Props where
  views : Option (List ViewInput) := none
  viewState : Option JVal := none
  width : Option Int := none
  height : Option Int := none

/-- `setProps(props)`: apply each provided key in order, then attempt a
rebuild. `_setSize` is invoked as soon as either `width` or `height` is
present; its assertion failure aborts the call. -/
def VM.setProps (eqFn : View → View → Bool) (vm : VM) (props : Props) :
    Except Unit VM :=
  let vm := match props.views with
    | some input => vm.setViews eqFn input
    | none => vm
  let vm := match props.viewState with
    | some vs => vm.setViewState vs
    | none => vm
  (if props.width.isSome || props.height.isSome then
    vm.setSize props.width props.height
  else .ok vm).map VM.rebuildViewportsFromViews

/-- `finalize()`: finalize every controller and empty the map. -/
def VM.finalize (vm : VM) : VM :=
  { vm with
    finalizedLog := vm.finalizedLog ++ vm.controllers.map fun p => p.2.cid
    controllers := [] }

/-- The state of a freshly constructed manager before the constructor's
`setProps(props)` call: default 100 by 100 size, empty view state, redraw
flag holding the initial reason, update flag boolean true. -/
def VM.initial : VM :=
  { views := []
    width := 100
    height := 100
    viewState := JVal.obj []
    controllers := []
    viewports := []
    viewportMap := []
    needsRedrawFlag := .reason "Initial render"
    needsUpdateFlag := .on
    nextCid := 0
    finalizedLog := []
    warnings := 0 }

/-- `constructor(props)`: initialize the sealed state, then `setProps(props)`. -/
def VM.new (eqFn : View → View → Bool) (props : Props) : Except Unit VM :=
  VM.initial.setProps eqFn props

/-- Example view equality: compare descriptors by id (a concrete instance of
the caller-supplied `View.equals`). -/
def eqById (a b : View) : Bool := a.id == b.id

/-- Example viewport with the given geometry and a constant containment
answer; its projections tag the argument with the viewport id. -/
def mkVpEx (i : String) (x y w h : Int) (inside : Bool) : Viewport :=
  { id := i
    x := x
    y := y
    width := w
    height := h
    containsFn := fun _ _ => inside
    containsPixelFn := fun _ _ => inside
    projectFn := fun p _ => JVal.arr [JVal.str i, p]
    unprojectFn := fun p => JVal.arr [JVal.str i, p] }

/-- Example view descriptor producing a full-window viewport at the origin. -/
def mkViewEx (i : String) (ctrl : JVal) : View :=
  { id := i
    controller := ctrl
    defaultState := JVal.null
    makeViewport := fun w h _ => mkVpEx i 0 0 w h true }

/-- Example manager whose two dirty flags both hold the reason "A". -/
def vmStickyEx : VM :=
  { VM.initial with needsRedrawFlag := .reason "A", needsUpdateFlag := .reason "A" }

/-- Example manager whose two dirty flags are both cleared. -/
def vmOffEx : VM :=
  { VM.initial with needsRedrawFlag := .off, needsUpdateFlag := .off }

/-- Example controller properties (placeholder payload for example controllers). -/
def cpEx : ControllerProps :=
  { config := JVal.null
    defaultState := JVal.null
    viewState := JVal.null
    id := "x"
    x := 0
    y := 0
    width := 0
    height := 0 }

/-- Example manager with one controller-bearing view "a" whose controller
instance 0 is live, as left by an earlier rebuild. -/
def vmC1Ex : VM :=
  { VM.initial with
    views := [mkViewEx "a" (JVal.obj [("z", JVal.num 1)])]
    controllers := [("a", ⟨0, cpEx⟩)]
    nextCid := 1
    needsUpdateFlag := .off }

/-- Example manager with live controllers for ids "a" and "b" but whose view
list now only contains "a", with a rebuild pending. -/
def vmC2Ex : VM :=
  { VM.initial with
    views := [mkViewEx "a" (JVal.bool true)]
    controllers := [("a", ⟨0, cpEx⟩), ("b", ⟨1, cpEx⟩)]
    nextCid := 2
    needsUpdateFlag := .on }

/-! Helper lemmas about flags and association-list maps. -/

theorem Flag.orJS_reason_isTruthy (a : Flag) (r : String) :
    (a.orJS (.reason r)).isTruthy = true := by
  cases a <;> rfl

theorem Flag.orJS_of_isTruthy (a b : Flag) (h : a.isTruthy = true) : a.orJS b = a := by
  simp [Flag.orJS, h]

theorem Flag.orJS_isTruthy_false (a b : Flag) (h : (a.orJS b).isTruthy = false) :
    a.isTruthy = false ∧ b.isTruthy = false := by
  cases a <;> cases b <;> simp_all [Flag.orJS, Flag.isTruthy]

theorem lookup_assocSet_self {α : Type} (m : List (String × α)) (k : String) (v : α) :
    (assocSet m k v).lookup k = some v := by
  induction m with
  | nil => simp [assocSet, List.lookup]
  | cons hd tl ih =>
      obtain ⟨k', v'⟩ := hd
      by_cases h : k' = k
      · subst h
        simp [assocSet, List.lookup]
      · have hb : (k == k') = false := beq_eq_false_iff_ne.mpr fun hc => h hc.symm
        simp [assocSet, h, List.lookup, hb, ih]

theorem lookup_assocSet_ne {α : Type} (m : List (String × α)) (k k' : String) (v : α)
    (h : k' ≠ k) : (assocSet m k v).lookup k' = m.lookup k' := by
  have hb : (k' == k) = false := beq_eq_false_iff_ne.mpr h
  induction m with
  | nil => simp [assocSet, List.lookup, hb]
  | cons hd tl ih =>
      obtain ⟨k₀, v₀⟩ := hd
      by_cases h₀ : k₀ = k
      · subst h₀
        simp [assocSet, List.lookup, hb]
      · simp only [assocSet, if_neg h₀, List.lookup]
        cases hk : (k' == k₀) <;> simp [ih]

/-- C7: Sticky dirty flags: once a flag holds a reason string, a later
`setNeedsRedraw`/`setNeedsUpdate` call with any other reason leaves that
first reason in place until the flag is cleared; a call on a cleared flag
installs its reason; and every `setNeedsUpdate(reason)` also raises the
redraw flag exactly as `setNeedsRedraw(reason)` would, leaving both flags
truthy. -/
theorem sticky_dirty_flags (vm : VM) (r : String) :
    (∀ s, vm.needsRedrawFlag = .reason s →
      (vm.setNeedsRedraw r).needsRedrawFlag = .reason s ∧
      (vm.setNeedsUpdate r).needsRedrawFlag = .reason s) ∧
    (∀ s, vm.needsUpdateFlag = .reason s →
      (vm.setNeedsUpdate r).needsUpdateFlag = .reason s) ∧
    (vm.setNeedsUpdate r).needsRedrawFlag = (vm.setNeedsRedraw r).needsRedrawFlag ∧
    (vm.setNeedsUpdate r).needsUpdateFlag.isTruthy = true ∧
    (vm.setNeedsUpdate r).needsRedrawFlag.isTruthy = true ∧
    (vm.needsRedrawFlag = .off → (vm.setNeedsRedraw r).needsRedrawFlag = .reason r) ∧
    (vm.needsUpdateFlag = .off → (vm.setNeedsUpdate r).needsUpdateFlag = .reason r) := by
  refine ⟨?_, ?_, rfl, ?_, ?_, ?_, ?_⟩
  · intro s h
    constructor <;>
      simp [VM.setNeedsRedraw, VM.setNeedsUpdate, h, Flag.orJS, Flag.isTruthy]
  · intro s h
    simp [VM.setNeedsUpdate, h, Flag.orJS, Flag.isTruthy]
  · exact Flag.orJS_reason_isTruthy _ r
  · exact Flag.orJS_reason_isTruthy _ r
  · intro h
    simp [VM.setNeedsRedraw, h, Flag.orJS, Flag.isTruthy]
  · intro h
    simp [VM.setNeedsUpdate, h, Flag.orJS, Flag.isTruthy]

/-- Witness for C7: with both flags holding "A", raising "B" keeps "A"; with
cleared flags, `setNeedsUpdate "B"` installs "B" in both flags. -/
theorem sticky_dirty_flags_witness :
    (vmStickyEx.setNeedsRedraw "B").needsRedrawFlag = .reason "A" ∧
    (vmStickyEx.setNeedsUpdate "B").needsRedrawFlag = .reason "A" ∧
    (vmStickyEx.setNeedsUpdate "B").needsUpdateFlag = .reason "A" ∧
    (vmOffEx.setNeedsUpdate "B").needsUpdateFlag = .reason "B" := by
  obtain ⟨h1, h2, -, -, -, -, h3⟩ := sticky_dirty_flags vmStickyEx "B"
  obtain ⟨-, -, -, -, -, -, h4⟩ := sticky_dirty_flags vmOffEx "B"
  exact ⟨(h1 "A" rfl).1, (h1 "A" rfl).2, h2 "A" rfl, h4 rfl⟩

/-- C6: needsRedraw one-shot consumption: `needsRedraw` returns the stored
redraw value (a reason or false); with `clearRedrawFlags = true` (the JS
default) it also resets the flag, with `false` it leaves the state intact.
Constructing with width 800, height 600, empty views and empty view state
yields "Initial render" on the first call and false on the second. -/
theorem needsRedraw_one_shot :
    (∀ vm : VM,
      vm.needsRedraw true = (vm.needsRedrawFlag, { vm with needsRedrawFlag := .off }) ∧
      vm.needsRedraw false = (vm.needsRedrawFlag, vm)) ∧
    (∀ eqFn : View → View → Bool,
      (VM.new eqFn
        { width := some 800, height := some 600,
          views := some [], viewState := some (JVal.obj []) }).map
        (fun vm => ((vm.needsRedraw true).1, (((vm.needsRedraw true).2).needsRedraw true).1))
      = .ok (.reason "Initial render", .off)) :=
  ⟨fun _ => ⟨rfl, rfl⟩, fun _ => rfl⟩

/-- C8: Rejected view state: a falsy `viewState` only logs a warning — the
stored state, both flags and everything else are untouched and the call
never throws, including through `setProps`; a truthy `viewState` is stored,
and the update flag is governed by deep equality with the previous value
(deep-equal content never raises it, non-equal content always does). -/
theorem rejected_view_state (vm : VM) (v : JVal) (eqFn : View → View → Bool) :
    (v.truthy = false →
      vm.setViewState v = { vm with warnings := vm.warnings + 1 } ∧
      (vm.needsUpdateFlag = .off →
        vm.setProps eqFn { viewState := some v } = .ok { vm with warnings := vm.warnings + 1 })) ∧
    (v.truthy = true →
      (vm.setViewState v).viewState = v ∧
      (deepEqual v vm.viewState = true →
        vm.setViewState v = { vm with viewState := v }) ∧
      (deepEqual v vm.viewState = false →
        (vm.setViewState v).needsUpdateFlag.isTruthy = true)) := by
  constructor
  · intro hf
    have hset : vm.setViewState v = { vm with warnings := vm.warnings + 1 } := by
      simp [VM.setViewState, hf]
    refine ⟨hset, fun hoff => ?_⟩
    simp [VM.setProps, hset, VM.rebuildViewportsFromViews, hoff, Flag.isTruthy, Except.map]
  · intro ht
    refine ⟨?_, fun heq => ?_, fun hne => ?_⟩
    · simp [VM.setViewState, ht]
    · simp [VM.setViewState, ht, heq]
    · simp [VM.setViewState, ht, hne, VM.setNeedsUpdate, Flag.orJS_reason_isTruthy]

/-- Witness for C8: setting `null` view state on a fresh manager only bumps
the warning counter; setting a fresh object with content equal to the
stored one leaves the manager unchanged apart from the stored reference. -/
theorem rejected_view_state_witness :
    VM.initial.setViewState JVal.null = { VM.initial with warnings := 1 } ∧
    vmOffEx.setProps eqById { viewState := some JVal.null } =
      .ok { vmOffEx with warnings := 1 } ∧
    VM.initial.setViewState (JVal.obj []) = { VM.initial with viewState := JVal.obj [] } := by
  obtain ⟨h1, -⟩ := rejected_view_state VM.initial JVal.null eqById
  obtain ⟨h2, -⟩ := rejected_view_state vmOffEx JVal.null eqById
  obtain ⟨-, h3⟩ := rejected_view_state VM.initial (JVal.obj []) eqById
  exact ⟨(h1 rfl).1, (h2 rfl).2 rfl, (h3 rfl).2.1 rfl⟩

theorem firstProject_eq_head_filter (xyz opts : JVal) (l : List Viewport) :
    firstProject xyz opts l =
      ((l.filter fun vp => vp.containsFn xyz opts).head?).map
        (fun vp => vp.projectFn xyz opts) := by
  induction l with
  | nil => rfl
  | cons vp rest ih =>
      cases h : vp.containsFn xyz opts <;>
        simp [firstProject, h, List.filter_cons, ih]

theorem firstUnproject_eq_head_filter (xyz opts : JVal) (l : List Viewport) :
    firstUnproject xyz opts l =
      ((l.filter fun vp => vp.containsPixelFn xyz opts).head?).map
        (fun vp => vp.unprojectFn xyz) := by
  induction l with
  | nil => rfl
  | cons vp rest ih =>
      cases h : vp.containsPixelFn xyz opts <;>
        simp [firstUnproject, h, List.filter_cons, ih]

/-- C4: Z-order resolution: `project`/`unproject` iterate the viewports in
reverse declared order and return the projection of the last-declared
viewport containing the point (world-space containment for `project`,
pixel-space for `unproject`); they return null when no viewport contains
it; and with overlapping viewports `[v1, v2]` both containing the point,
`v2` (declared last) wins. -/
theorem z_order_resolution (vm : VM) (xyz opts : JVal) :
    (vm.project xyz opts =
      ((vm.viewports.filter fun vp => vp.containsFn xyz opts).getLast?).map
        (fun vp => vp.projectFn xyz opts)) ∧
    (vm.unproject xyz opts =
      ((vm.viewports.filter fun vp => vp.containsPixelFn xyz opts).getLast?).map
        (fun vp => vp.unprojectFn xyz)) ∧
    ((∀ vp ∈ vm.viewports, vp.containsFn xyz opts = false) →
      vm.project xyz opts = none) ∧
    (∀ v1 v2 : Viewport, v1.containsFn xyz opts = true → v2.containsFn xyz opts = true →
      ({ vm with viewports := [v1, v2] } : VM).project xyz opts =
        some (v2.projectFn xyz opts)) ∧
    (∀ v1 v2 : Viewport, v1.containsPixelFn xyz opts = true →
      v2.containsPixelFn xyz opts = true →
      ({ vm with viewports := [v1, v2] } : VM).unproject xyz opts =
        some (v2.unprojectFn xyz)) := by
  have hp : vm.project xyz opts =
      ((vm.viewports.filter fun vp => vp.containsFn xyz opts).getLast?).map
        (fun vp => vp.projectFn xyz opts) := by
    rw [VM.project, firstProject_eq_head_filter]
    simp [VM.getViewports, List.filter_reverse, List.head?_reverse]
  refine ⟨hp, ?_, ?_, ?_, ?_⟩
  · rw [VM.unproject, firstUnproject_eq_head_filter]
    simp [VM.getViewports, List.filter_reverse, List.head?_reverse]
  · intro hnone
    rw [hp]
    have : vm.viewports.filter (fun vp => vp.containsFn xyz opts) = [] := by
      simp only [List.filter_eq_nil_iff]
      intro vp hvp
      simp [hnone vp hvp]
    rw [this]
    rfl
  · intro v1 v2 _ h2
    simp [VM.project, VM.getViewports, firstProject, h2]
  · intro v1 v2 _ h2
    simp [VM.unproject, VM.getViewports, firstUnproject, h2]

/-- Witness for C4: two stacked viewports both containing the query point —
the later-declared "v2" answers both `project` and `unproject`. -/
theorem z_order_resolution_witness :
    ({ VM.initial with
        viewports := [mkVpEx "v1" 0 0 10 10 true, mkVpEx "v2" 0 0 10 10 true] } : VM).project
      (JVal.num 5) JVal.null = some (JVal.arr [JVal.str "v2", JVal.num 5]) ∧
    ({ VM.initial with
        viewports := [mkVpEx "v1" 0 0 10 10 true, mkVpEx "v2" 0 0 10 10 true] } : VM).unproject
      (JVal.num 5) JVal.null = some (JVal.arr [JVal.str "v2", JVal.num 5]) := by
  obtain ⟨-, -, -, h4, h5⟩ := z_order_resolution VM.initial (JVal.num 5) JVal.null
  exact ⟨h4 (mkVpEx "v1" 0 0 10 10 true) (mkVpEx "v2" 0 0 10 10 true) rfl rfl,
    h5 (mkVpEx "v1" 0 0 10 10 true) (mkVpEx "v2" 0 0 10 10 true) rfl rfl⟩

theorem lookup_foldl_buildViewportMapStep (id : String) (hid : id ≠ "")
    (viewports : List Viewport) :
    ∀ m : List (String × Viewport),
      ((viewports.foldl buildViewportMapStep m).lookup id) =
        (match m.lookup id with
          | some vp => some vp
          | none => viewports.find? fun vp => vp.id == id) := by
  induction viewports with
  | nil =>
      intro m
      cases h : m.lookup id <;> simp [h]
  | cons vp rest ih =>
      intro m
      rw [List.foldl_cons, ih]
      by_cases hvp : vp.id = ""
      · have hne : ("" == id) = false := beq_eq_false_iff_ne.mpr fun hc => hid hc.symm
        simp [buildViewportMapStep, hvp, List.find?, hne]
      · have hv : (vp.id != "") = true := by simp [hvp]
        by_cases heq : vp.id = id
        · subst heq
          cases h : m.lookup vp.id with
          | some w =>
              simp [buildViewportMapStep, hv, h]
          | none =>
              simp [buildViewportMapStep, hv, h, lookup_assocSet_self, List.find?]
        · have hne : (vp.id == id) = false := beq_eq_false_iff_ne.mpr heq
          cases h : m.lookup vp.id with
          | some w =>
              simp [buildViewportMapStep, hv, h, List.find?, hne]
          | none =>
              simp [buildViewportMapStep, hv, h, List.find?, hne,
                lookup_assocSet_ne _ _ _ _ (fun hc => heq hc.symm)]

/-- C10 (amended): after every rebuild the id-to-viewport map binds each
truthy id to the first viewport in declared order carrying it (later
duplicates silently ignored), so `getViewport` returns that first viewport;
`getViewState(id)` returns the per-view entry of the view-state object when
the id is a key bound to a truthy value, and falls back to the whole
view-state object when the id is not a key or its entry is falsy. -/
theorem duplicate_id_first_wins_and_view_state_lookup :
    (∀ (viewports : List Viewport) (id : String), id ≠ "" →
      (buildViewportMap viewports).lookup id =
        viewports.find? fun vp => vp.id == id) ∧
    (∀ vm : VM, vm.needsUpdateFlag.isTruthy = true → ∀ id : String, id ≠ "" →
      (vm.rebuildViewportsFromViews).getViewport id =
        (vm.rebuildViewportsFromViews).viewports.find? fun vp => vp.id == id) ∧
    (∀ (vs : JVal) (id : String),
      (vs.get id = none → getViewStateFrom vs id = vs) ∧
      (∀ v, vs.get id = some v → v.truthy = true → getViewStateFrom vs id = v) ∧
      (∀ v, vs.get id = some v → v.truthy = false → getViewStateFrom vs id = vs)) := by
  have hmap : ∀ (viewports : List Viewport) (id : String), id ≠ "" →
      (buildViewportMap viewports).lookup id =
        viewports.find? fun vp => vp.id == id := by
    intro viewports id hid
    rw [buildViewportMap, lookup_foldl_buildViewportMapStep id hid]
    rfl
  refine ⟨hmap, ?_, ?_⟩
  · intro vm hNU id hid
    rw [VM.rebuildViewportsFromViews]
    simp only [hNU, if_true]
    exact hmap _ id hid
  · intro vs id
    refine ⟨fun h => ?_, fun v h ht => ?_, fun v h ht => ?_⟩
    · simp [getViewStateFrom, h]
    · simp [getViewStateFrom, h, ht]
    · simp [getViewStateFrom, h, ht]

/-- Counterexample for C10 as stated: with view state `{a: 0}` the id "a"
is a key, yet `getViewState "a"` returns the whole view-state object — the
falsy entry `0` is skipped by the `||` fallback — rather than the per-view
entry. -/
theorem get_view_state_falsy_entry_counterexample :
    ({ VM.initial with viewState := JVal.obj [("a", JVal.num 0)] } : VM).getViewState "a"
      = JVal.obj [("a", JVal.num 0)] ∧
    JVal.obj [("a", JVal.num 0)] ≠ JVal.num 0 :=
  ⟨rfl, fun h => JVal.noConfusion h⟩

/-- Witness for C10 (amended): duplicate id "a" — the map keeps the first
viewport (x = 0), and `getViewState` picks a truthy per-id entry. -/
theorem duplicate_id_first_wins_witness :
    (buildViewportMap [mkVpEx "a" 0 0 1 1 true, mkVpEx "a" 5 5 2 2 true]).lookup "a" =
      some (mkVpEx "a" 0 0 1 1 true) ∧
    getViewStateFrom (JVal.obj [("a", JVal.num 7)]) "a" = JVal.num 7 := by
  obtain ⟨h1, -, h3⟩ := duplicate_id_first_wins_and_view_state_lookup
  constructor
  · rw [h1 _ "a" (by decide)]
    rfl
  · exact (h3 (JVal.obj [("a", JVal.num 7)]) "a").2.1 (JVal.num 7) rfl rfl

theorem rebuild_preserves (vm : VM) :
    (vm.rebuildViewportsFromViews).views = vm.views ∧
    (vm.rebuildViewportsFromViews).viewState = vm.viewState ∧
    (vm.rebuildViewportsFromViews).width = vm.width ∧
    (vm.rebuildViewportsFromViews).height = vm.height ∧
    (vm.rebuildViewportsFromViews).warnings = vm.warnings ∧
    (vm.rebuildViewportsFromViews).needsRedrawFlag = vm.needsRedrawFlag := by
  rw [VM.rebuildViewportsFromViews]
  split <;> simp

/-- Counterexample for C9 as stated: a `setProps` whose props contain only
a finite `width` (no `height`) does not succeed: `_setSize` receives
`undefined` for the height and fails the `Number.isFinite` assertion. -/
theorem width_only_set_props_counterexample :
    VM.initial.setProps eqById { width := some 200 } = .error () := rfl

/-- C9 (amended): any subset of the recognized keys may be present in a
`setProps` call, and absent keys leave prior state untouched — except that
`width` and `height` must be supplied together: a call carrying `width` but
not `height` (or vice versa) fails `_setSize`'s finiteness assertion and
throws. When both are present the call succeeds, stores them, and leaves
views and view state untouched. -/
theorem set_props_key_subsets (vm : VM) (eqFn : View → View → Bool) :
    (∀ w : Int, vm.setProps eqFn { width := some w } = .error ()) ∧
    (∀ h : Int, vm.setProps eqFn { height := some h } = .error ()) ∧
    (∀ (w h : Int) (vm' : VM),
      vm.setProps eqFn { width := some w, height := some h } = .ok vm' →
      vm'.width = w ∧ vm'.height = h ∧ vm'.views = vm.views ∧
      vm'.viewState = vm.viewState ∧ vm'.warnings = vm.warnings) ∧
    (∃ vm', vm.setProps eqFn {} = .ok vm' ∧ vm'.views = vm.views ∧
      vm'.viewState = vm.viewState ∧ vm'.width = vm.width ∧
      vm'.height = vm.height) := by
  refine ⟨fun w => rfl, fun h => rfl, ?_, ?_⟩
  · intro w h vm' hok
    simp only [VM.setProps, VM.setSize, Option.isSome_some, Bool.or_self, if_true] at hok
    split at hok
    next hcond =>
      simp only [Except.map, Except.ok.injEq] at hok
      subst hok
      obtain ⟨p1, p2, p3, p4, p5, -⟩ :=
        rebuild_preserves { (vm.setNeedsUpdate "Size changed") with width := w, height := h }
      exact ⟨p3, p4, p1, p2, p5⟩
    next hcond =>
      simp only [Bool.or_eq_true, bne_iff_ne, not_or, not_ne_iff] at hcond
      obtain ⟨hw, hh⟩ := hcond
      simp only [Except.map, Except.ok.injEq] at hok
      subst hok
      obtain ⟨p1, p2, p3, p4, p5, -⟩ := rebuild_preserves vm
      exact ⟨p3.trans hw.symm, p4.trans hh.symm, p1, p2, p5⟩
  · refine ⟨VM.rebuildViewportsFromViews vm, ?_⟩
    obtain ⟨p1, p2, p3, p4, -⟩ := rebuild_preserves vm
    exact ⟨rfl, p1, p2, p3, p4⟩

/-- Witness for C9 (amended): supplying width 300 and height 400 together
succeeds and leaves the (empty) views and view state of a fresh manager
untouched. -/
theorem set_props_key_subsets_witness :
    ∃ vm' : VM,
      VM.initial.setProps eqById { width := some 300, height := some 400 } = .ok vm' ∧
      vm'.width = 300 ∧ vm'.height = 400 ∧ vm'.views = VM.initial.views := by
  obtain ⟨-, -, h3, -⟩ := set_props_key_subsets VM.initial eqById
  refine ⟨_, rfl, ?_⟩
  obtain ⟨q1, q2, q3, -⟩ := h3 300 400 _ rfl
  exact ⟨q1, q2, q3⟩

theorem diffViews_eq_false_length (eqFn : View → View → Bool) (xs ys : List View)
    (h : diffViews eqFn xs ys = false) : xs.length = ys.length := by
  rw [diffViews] at h
  by_contra hlen
  simp [hlen] at h

/-- C5: View-list equality short-circuit: the normalized (flattened,
falsy-filtered, viewport-wrapped) new sequence leaves update-needed
untouched exactly when it is element-wise `equals` to the previous list
(same length, pairwise equal) — in that case a `setProps` on a clean
manager returns with nothing changed but the stored list (no rebuild, no
new controller instances); any length mismatch or non-equal pair marks the
whole list changed. -/
theorem view_list_short_circuit (eqFn : View → View → Bool) (vm : VM)
    (input : List ViewInput) :
    (diffViews eqFn (normalizeViews input) vm.views = false ↔
      List.Forall₂ (fun a b => eqFn a b = true) (normalizeViews input) vm.views) ∧
    (List.Forall₂ (fun a b => eqFn a b = true) (normalizeViews input) vm.views →
      (vm.setViews eqFn input).needsUpdateFlag = vm.needsUpdateFlag) ∧
    (vm.needsUpdateFlag = .off →
      List.Forall₂ (fun a b => eqFn a b = true) (normalizeViews input) vm.views →
      vm.setProps eqFn { views := some input } =
        .ok { vm with views := normalizeViews input }) ∧
    (diffViews eqFn (normalizeViews input) vm.views = true →
      (vm.setViews eqFn input).needsUpdateFlag.isTruthy = true) := by
  have h1 : diffViews eqFn (normalizeViews input) vm.views = false ↔
      List.Forall₂ (fun a b => eqFn a b = true) (normalizeViews input) vm.views := by
    constructor
    · intro hdiff
      have hlen := diffViews_eq_false_length eqFn _ _ hdiff
      rw [diffViews] at hdiff
      simp only [hlen, bne_self_eq_false, Bool.false_eq_true, if_false,
        List.any_eq_false] at hdiff
      rw [List.forall₂_iff_zip]
      refine ⟨hlen, fun {a b} hab => ?_⟩
      have := hdiff (a, b) hab
      simpa using this
    · intro hf
      obtain ⟨hlen, hall⟩ := List.forall₂_iff_zip.mp hf
      rw [diffViews]
      simp only [hlen, bne_self_eq_false, Bool.false_eq_true, if_false,
        List.any_eq_false]
      intro p hp
      obtain ⟨a, b⟩ := p
      simpa using hall hp
  refine ⟨h1, fun hf => ?_, fun hoff hf => ?_, fun hdiff => ?_⟩
  · simp [VM.setViews, h1.mpr hf]
  · have hsv : vm.setViews eqFn input = { vm with views := normalizeViews input } := by
      simp [VM.setViews, h1.mpr hf]
    simp [VM.setProps, hsv, VM.rebuildViewportsFromViews, hoff, Flag.isTruthy, Except.map]
  · simp [VM.setViews, hdiff, VM.setNeedsUpdate, Flag.orJS_reason_isTruthy]

/-- Witness for C5: re-supplying an `equals` view list (wrapped in a fresh
array) to a clean one-view manager changes nothing but the stored list. -/
theorem view_list_short_circuit_witness :
    ({ VM.initial with
        views := [mkViewEx "a" (JVal.bool true)]
        needsUpdateFlag := .off } : VM).setProps eqById
      { views := some [ViewInput.v (mkViewEx "a" (JVal.bool true))] } =
      .ok { VM.initial with
        views := [mkViewEx "a" (JVal.bool true)]
        needsUpdateFlag := .off } := by
  obtain ⟨-, -, h3, -⟩ := view_list_short_circuit eqById
    { VM.initial with
      views := [mkViewEx "a" (JVal.bool true)]
      needsUpdateFlag := .off }
    [ViewInput.v (mkViewEx "a" (JVal.bool true))]
  exact h3 rfl (List.Forall₂.cons rfl List.Forall₂.nil)

theorem processView_viewports (w h : Int) (vs : JVal)
    (old : List (String × Controller)) (acc : RebuildAcc) (view : View) :
    (processView w h vs old acc view).viewports =
      acc.viewports ++ [view.makeViewport w h (getViewStateFrom vs view.id)] := by
  rw [processView]
  split
  · split <;> rfl
  · rfl

theorem foldl_processView_length (w h : Int) (vs : JVal)
    (old : List (String × Controller)) (views : List View) :
    ∀ acc : RebuildAcc,
      ((views.foldl (processView w h vs old) acc).viewports).length =
        acc.viewports.length + views.length := by
  induction views with
  | nil => intro acc; simp
  | cons v rest ih =>
      intro acc
      rw [List.foldl_cons, ih, processView_viewports]
      simp
      omega

theorem rebuild_establishes_length (u : VM)
    (hinv : u.needsUpdateFlag.isTruthy = false → u.viewports.length = u.views.length) :
    (u.rebuildViewportsFromViews).viewports.length =
      (u.rebuildViewportsFromViews).views.length := by
  rw [VM.rebuildViewportsFromViews]
  cases hNU : u.needsUpdateFlag.isTruthy with
  | false => simpa [hNU] using hinv hNU
  | true => simp [hNU, foldl_processView_length]

theorem setViews_length_inv (eqFn : View → View → Bool) (vm : VM)
    (input : List ViewInput)
    (hinv : vm.needsUpdateFlag.isTruthy = false → vm.viewports.length = vm.views.length) :
    (vm.setViews eqFn input).needsUpdateFlag.isTruthy = false →
      (vm.setViews eqFn input).viewports.length = (vm.setViews eqFn input).views.length := by
  intro hoff
  cases hdiff : diffViews eqFn (normalizeViews input) vm.views with
  | true =>
      exfalso
      rw [VM.setViews] at hoff
      simp only [hdiff, if_true] at hoff
      rw [show (vm.setNeedsUpdate "views changed").needsUpdateFlag =
        vm.needsUpdateFlag.orJS (.reason "views changed") from rfl] at hoff
      rw [Flag.orJS_reason_isTruthy] at hoff
      cases hoff
  | false =>
      have hlen := diffViews_eq_false_length eqFn _ _ hdiff
      rw [VM.setViews] at hoff ⊢
      simp only [hdiff, Bool.false_eq_true, if_false] at hoff ⊢
      rw [hlen]
      exact hinv hoff

theorem setViewState_length_inv (vm : VM) (v : JVal)
    (hinv : vm.needsUpdateFlag.isTruthy = false → vm.viewports.length = vm.views.length) :
    (vm.setViewState v).needsUpdateFlag.isTruthy = false →
      (vm.setViewState v).viewports.length = (vm.setViewState v).views.length := by
  intro hoff
  rw [VM.setViewState] at hoff ⊢
  cases ht : v.truthy with
  | false =>
      simp only [ht, Bool.false_eq_true, if_false] at hoff ⊢
      exact hinv hoff
  | true =>
      cases hde : deepEqual v vm.viewState with
      | true =>
          simp only [ht, hde, Bool.not_true, Bool.false_eq_true, if_false, if_true] at hoff ⊢
          exact hinv hoff
      | false =>
          exfalso
          simp only [ht, hde, Bool.not_false, if_true] at hoff
          rw [show ((vm.setNeedsUpdate "viewState changed").needsUpdateFlag) =
            vm.needsUpdateFlag.orJS (.reason "viewState changed") from rfl] at hoff
          rw [Flag.orJS_reason_isTruthy] at hoff
          cases hoff

theorem setSize_length_inv (vm : VM) (ow oh : Option Int) (vm₁ : VM)
    (hok : vm.setSize ow oh = .ok vm₁)
    (hinv : vm.needsUpdateFlag.isTruthy = false → vm.viewports.length = vm.views.length) :
    vm₁.needsUpdateFlag.isTruthy = false →
      vm₁.viewports.length = vm₁.views.length := by
  intro hoff
  match ow, oh with
  | some w, some h =>
      rw [VM.setSize] at hok
      simp only [Except.ok.injEq] at hok
      subst hok
      split at hoff
      · exfalso
        rw [show ({ (vm.setNeedsUpdate "Size changed") with
            width := w, height := h } : VM).needsUpdateFlag =
          vm.needsUpdateFlag.orJS (.reason "Size changed") from rfl] at hoff
        rw [Flag.orJS_reason_isTruthy] at hoff
        cases hoff
      · split
        · exact hinv hoff
        · exact hinv hoff
  | some _, none => cases hok
  | none, some _ => cases hok
  | none, none => cases hok

/-- C3: Count invariant: starting from a manager satisfying the rebuild
invariant (clean managers have one viewport per view), any successful
`setProps` returns with `getViewports()` of exactly the same length as the
current view list. -/
theorem count_invariant (eqFn : View → View → Bool) (vm : VM) (props : Props) (vm' : VM)
    (hinv : vm.needsUpdateFlag.isTruthy = false → vm.viewports.length = vm.views.length)
    (hok : vm.setProps eqFn props = .ok vm') :
    (vm'.getViewports none).length = vm'.views.length := by
  rw [VM.setProps] at hok
  set vmA := (match props.views with
    | some input => VM.setViews eqFn vm input
    | none => vm) with hA
  set vmB := (match props.viewState with
    | some vs => VM.setViewState vmA vs
    | none => vmA) with hB
  have hinvA : vmA.needsUpdateFlag.isTruthy = false →
      vmA.viewports.length = vmA.views.length := by
    rw [hA]
    cases props.views with
    | none => exact hinv
    | some input => exact setViews_length_inv eqFn vm input hinv
  have hinvB : vmB.needsUpdateFlag.isTruthy = false →
      vmB.viewports.length = vmB.views.length := by
    rw [hB]
    cases props.viewState with
    | none => exact hinvA
    | some vs => exact setViewState_length_inv vmA vs hinvA
  by_cases hsz : (props.width.isSome || props.height.isSome) = true
  · rw [if_pos hsz] at hok
    cases hC : vmB.setSize props.width props.height with
    | error e => rw [hC] at hok; cases hok
    | ok vmC =>
        rw [hC] at hok
        simp only [Except.map, Except.ok.injEq] at hok
        subst hok
        exact rebuild_establishes_length vmC
          (setSize_length_inv vmB props.width props.height vmC hC hinvB)
  · rw [if_neg hsz] at hok
    simp only [Except.map, Except.ok.injEq] at hok
    subst hok
    exact rebuild_establishes_length vmB hinvB

/-- Witness for C3: a fresh construction with two views yields exactly two
viewports. -/
theorem count_invariant_witness :
    ∃ vm' : VM,
      VM.initial.setProps eqById
        { width := some 100, height := some 100,
          views := some [ViewInput.v (mkViewEx "a" JVal.null),
            ViewInput.nested [ViewInput.v (mkViewEx "b" JVal.null), ViewInput.falsy]],
          viewState := some (JVal.obj []) } = .ok vm' ∧
      (vm'.getViewports none).length = 2 ∧ vm'.views.length = 2 := by
  refine ⟨_, rfl, ?_, rfl⟩
  have h := count_invariant eqById VM.initial
    { width := some 100, height := some 100,
      views := some [ViewInput.v (mkViewEx "a" JVal.null),
        ViewInput.nested [ViewInput.v (mkViewEx "b" JVal.null), ViewInput.falsy]],
      viewState := some (JVal.obj []) } _ (fun hoff => by cases hoff) rfl
  exact h.trans rfl

theorem processView_lookup_ne (w h : Int) (vs : JVal)
    (old : List (String × Controller)) (acc : RebuildAcc) (view : View) (k : String)
    (hne : view.id ≠ k) :
    ((processView w h vs old acc view).controllers).lookup k =
      acc.controllers.lookup k := by
  rw [processView]
  split
  · cases hl : old.lookup view.id <;>
      simp [hl, lookup_assocSet_ne _ _ _ _ (fun hc => hne hc.symm)]
  · rfl

theorem processView_lookup_self_old (w h : Int) (vs : JVal)
    (old : List (String × Controller)) (acc : RebuildAcc) (view : View) (c : Controller)
    (ht : view.controller.truthy = true) (hold : old.lookup view.id = some c) :
    ((processView w h vs old acc view).controllers).lookup view.id =
      some ⟨c.cid, controllerPropsFor view (getViewStateFrom vs view.id)
        (view.makeViewport w h (getViewStateFrom vs view.id))⟩ := by
  simp [processView, ht, hold, lookup_assocSet_self, Controller.setProps]

theorem foldl_processView_lookup_skip (w h : Int) (vs : JVal)
    (old : List (String × Controller)) (k : String) (views : List View) :
    ∀ acc : RebuildAcc, (∀ v ∈ views, v.id ≠ k) →
      ((views.foldl (processView w h vs old) acc).controllers).lookup k =
        acc.controllers.lookup k := by
  induction views with
  | nil => intro acc _; rfl
  | cons v rest ih =>
      intro acc hall
      rw [List.foldl_cons, ih _ (fun u hu => hall u (List.mem_cons_of_mem _ hu)),
        processView_lookup_ne _ _ _ _ _ _ _ (hall v (List.mem_cons_self _ _))]

/-- C1: Controller identity preservation: when a view with a live controller
persists across a rebuild triggered by a `setProps` that carries only a
changed width/height, the controller stored for that view's id is the same
instance as before (same allocation identity `cid`), updated via its
`setProps` with the merged properties (config, default state, resolved view
state, id and the new viewport geometry) rather than a newly constructed
controller. -/
theorem controller_identity_preservation
    (vm : VM) (eqFn : View → View → Bool) (view : View) (c : Controller)
    (pre post : List View)
    (hviews : vm.views = pre ++ view :: post)
    (hctrl : view.controller.truthy = true)
    (hold : vm.controllers.lookup view.id = some c)
    (hlast : ∀ v ∈ post, v.id ≠ view.id)
    (w h : Int) (vm' : VM)
    (hchange : (w != vm.width || h != vm.height) = true)
    (hok : vm.setProps eqFn { width := some w, height := some h } = .ok vm') :
    vm'.controllers.lookup view.id =
      some ⟨c.cid, controllerPropsFor view (getViewStateFrom vm.viewState view.id)
        (view.makeViewport w h (getViewStateFrom vm.viewState view.id))⟩ := by
  rw [VM.setProps] at hok
  simp only [VM.setSize, Option.isSome_some, Bool.or_self, if_true, hchange,
    Except.map, Except.ok.injEq] at hok
  subst hok
  simp only [VM.rebuildViewportsFromViews, VM.setNeedsUpdate, Flag.orJS_reason_isTruthy,
    eq_self_iff_true, if_true]
  rw [hviews, List.foldl_append, List.foldl_cons,
    foldl_processView_lookup_skip _ _ _ _ _ _ _ hlast]
  exact processView_lookup_self_old _ _ _ _ _ _ _ hctrl hold

/-- Witness for C1: resizing from 100 by 100 to 300 by 400 keeps controller
instance 0 for view "a" and hands it the merged properties carrying the new
geometry. -/
theorem controller_identity_preservation_witness :
    ∃ vm' : VM,
      vmC1Ex.setProps eqById { width := some 300, height := some 400 } = .ok vm' ∧
      vm'.controllers.lookup "a" =
        some ⟨0, ⟨JVal.obj [("z", JVal.num 1)], JVal.null, JVal.obj [], "a",
          0, 0, 300, 400⟩⟩ := by
  refine ⟨_, rfl, ?_⟩
  exact controller_identity_preservation vmC1Ex eqById
    (mkViewEx "a" (JVal.obj [("z", JVal.num 1)])) ⟨0, cpEx⟩ [] []
    rfl rfl rfl (fun v hv => absurd hv (List.not_mem_nil v))
    300 400 _ (by decide) rfl

theorem processView_lookup_isSome (w h : Int) (vs : JVal)
    (old : List (String × Controller)) (acc : RebuildAcc) (view : View) (k : String) :
    (((processView w h vs old acc view).controllers).lookup k).isSome = true ↔
      ((acc.controllers.lookup k).isSome = true ∨
        (view.id = k ∧ view.controller.truthy = true)) := by
  cases ht : view.controller.truthy with
  | false => simp [processView, ht]
  | true =>
      by_cases hk : view.id = k
      · subst hk
        cases hl : old.lookup view.id <;>
          simp [processView, ht, hl, lookup_assocSet_self]
      · cases hl : old.lookup view.id <;>
          simp [processView, ht, hl, hk,
            lookup_assocSet_ne _ _ _ _ (fun hc => hk hc.symm)]

theorem foldl_processView_lookup_isSome (w h : Int) (vs : JVal)
    (old : List (String × Controller)) (views : List View) :
    ∀ (acc : RebuildAcc) (k : String),
      (((views.foldl (processView w h vs old) acc).controllers).lookup k).isSome = true ↔
        ((acc.controllers.lookup k).isSome = true ∨
          ∃ v ∈ views, v.id = k ∧ v.controller.truthy = true) := by
  induction views with
  | nil => intro acc k; simp
  | cons v rest ih =>
      intro acc k
      rw [List.foldl_cons, ih, processView_lookup_isSome]
      constructor
      · rintro (⟨h | h⟩ | ⟨u, hu, h⟩)
        · exact Or.inl h
        · exact Or.inr ⟨v, List.mem_cons_self _ _, h⟩
        · exact Or.inr ⟨u, List.mem_cons_of_mem _ hu, h⟩
      · rintro (h | ⟨u, hu, h⟩)
        · exact Or.inl (Or.inl h)
        · rcases List.mem_cons.mp hu with rfl | hu
          · exact Or.inl (Or.inr h)
          · exact Or.inr ⟨u, hu, h⟩

theorem mem_droppedCids_mem_map (old newC : List (String × Controller)) (x : Nat)
    (hx : x ∈ droppedCids old newC) : x ∈ old.map fun p => p.2.cid := by
  rw [droppedCids] at hx
  obtain ⟨p, hp, rfl⟩ := List.mem_map.mp hx
  exact List.mem_map.mpr ⟨p, (List.mem_filter.mp hp).1, rfl⟩

theorem count_droppedCids (newC : List (String × Controller)) :
    ∀ old : List (String × Controller), ((old.map fun p => p.2.cid).Nodup) →
      ∀ (k : String) (c : Controller), (k, c) ∈ old →
      (droppedCids old newC).count c.cid =
        (if (newC.lookup k).isNone then 1 else 0) := by
  intro old
  induction old with
  | nil => intro _ k c hc; cases hc
  | cons hd tl ih =>
      intro hnd k c hc
      obtain ⟨k₀, c₀⟩ := hd
      rw [List.map_cons, List.nodup_cons] at hnd
      rcases List.mem_cons.mp hc with heq | htl
      · injection heq with hk hv
        subst hk
        subst hv
        have hrest : (droppedCids tl newC).count c.cid = 0 :=
          List.count_eq_zero.mpr fun hmem => hnd.1 (mem_droppedCids_mem_map tl newC _ hmem)
        cases hdrop : (newC.lookup k).isNone with
        | true =>
            rw [droppedCids, List.filter_cons, if_pos hdrop, List.map_cons]
            rw [show ((k, c).2.cid :: (tl.filter fun p =>
              (newC.lookup p.1).isNone).map fun p => p.2.cid) =
              (c.cid :: droppedCids tl newC) from rfl]
            simp [hrest]
        | false =>
            rw [droppedCids, List.filter_cons, hdrop]
            simp only [Bool.false_eq_true, if_false]
            rw [show ((tl.filter fun p => (newC.lookup p.1).isNone).map fun p =>
              p.2.cid) = droppedCids tl newC from rfl]
            simp [hrest]
      · have hcidne : c₀.cid ≠ c.cid := by
          intro hcc
          exact hnd.1 (hcc ▸ List.mem_map.mpr ⟨(k, c), htl, rfl⟩)
        have htail := ih hnd.2 k c htl
        cases hdrop₀ : (newC.lookup k₀).isNone with
        | true =>
            rw [droppedCids, List.filter_cons, if_pos hdrop₀, List.map_cons]
            rw [show (((tl.filter fun p => (newC.lookup p.1).isNone).map fun p =>
              p.2.cid) : List Nat) = droppedCids tl newC from rfl]
            rw [List.count_cons_of_ne (fun hc2 => hcidne hc2.symm) , htail]
        | false =>
            rw [droppedCids, List.filter_cons, hdrop₀]
            simp only [Bool.false_eq_true, if_false]
            rw [show (((tl.filter fun p => (newC.lookup p.1).isNone).map fun p =>
              p.2.cid) : List Nat) = droppedCids tl newC from rfl]
            exact htail

/-- C2: Controller disposal: on every rebuild, a live controller whose id
has disappeared from the new controllers map has `finalize` called on it
exactly once (its identity enters the finalize log exactly once more), a
surviving one is not finalized at all, and afterwards the controllers map
holds exactly the ids of currently-present views that declare a
controller. The `Nodup` hypothesis states that the live controllers are
distinct instances, an invariant of the allocator. -/
theorem controller_disposal (vm : VM)
    (hNU : vm.needsUpdateFlag.isTruthy = true)
    (hCids : ((vm.controllers.map fun p => p.2.cid).Nodup)) :
    (∀ (k : String) (c : Controller), (k, c) ∈ vm.controllers →
      (((vm.rebuildViewportsFromViews).controllers.lookup k) = none →
        (vm.rebuildViewportsFromViews).finalizedLog.count c.cid =
          vm.finalizedLog.count c.cid + 1) ∧
      ((((vm.rebuildViewportsFromViews).controllers.lookup k)).isSome = true →
        (vm.rebuildViewportsFromViews).finalizedLog.count c.cid =
          vm.finalizedLog.count c.cid)) ∧
    (∀ k : String,
      (((vm.rebuildViewportsFromViews).controllers.lookup k).isSome = true ↔
        ∃ v ∈ vm.views, v.id = k ∧ v.controller.truthy = true)) := by
  simp only [VM.rebuildViewportsFromViews, hNU, if_true]
  constructor
  · intro k c hkc
    constructor
    · intro hnone
      rw [List.count_append, count_droppedCids _ vm.controllers hCids k c hkc,
        if_pos (Option.isNone_iff_eq_none.mpr hnone)]
    · intro hsome
      rw [List.count_append, count_droppedCids _ vm.controllers hCids k c hkc]
      have hnn : ¬((vm.views.foldl
          (processView vm.width vm.height vm.viewState vm.controllers)
          ⟨[], [], vm.nextCid⟩).controllers.lookup k).isNone = true := by
        simp only [Option.isNone_iff_eq_none]
        intro hn
        rw [hn] at hsome
        cases hsome
      rw [if_neg hnn]
      simp
  · intro k
    rw [foldl_processView_lookup_isSome]
    simp

/-- Witness for C2: rebuilding after the view list dropped "b" finalizes
controller instance 1 exactly once and keeps a controller for "a". -/
theorem controller_disposal_witness :
    ((vmC2Ex.rebuildViewportsFromViews).controllers.lookup "b" = none) ∧
    (vmC2Ex.rebuildViewportsFromViews).finalizedLog.count 1 = 1 ∧
    (((vmC2Ex.rebuildViewportsFromViews).controllers.lookup "a").isSome = true) := by
  obtain ⟨h1, h2⟩ := controller_disposal vmC2Ex rfl (by decide)
  refine ⟨rfl, ?_, ?_⟩
  · exact (h1 "b" ⟨1, cpEx⟩ (by simp [vmC2Ex])).1 rfl
  · exact (h2 "a").mpr ⟨mkViewEx "a" (JVal.bool true), by simp [vmC2Ex, mkViewEx], rfl, rfl⟩

end DeckGL
